import Mathlib

/-!
Shallow embedding of the node registry and lifecycle reconciler of the
skyway repository (src/skyway/nodemap.py, class NodeMap), together with
theorems settling the frozen claims about it.

Modelling conventions:
* A Python node dict row becomes the structure `Node`; the registry dict
  `self.nodes` becomes an ordered association list `List Node` keyed by
  the `host` field (Python dicts preserve insertion order and new keys
  are appended at the end).
* Exceptions become `Except PyErr`; the distinct Python exception classes
  that the code can raise are the constructors of `PyErr`.
* `NodeMap.__init__` leaves the attribute `self.db` unassigned (the
  assignment `self.db = DBConnector()` is commented out), so every later
  access `self.db.<method>` raises `AttributeError`.  This is modelled by
  the flag `dbPresent : Bool` in the state: the faithful constructor sets
  it to `false`, and each access to `self.db` yields
  `.error .attributeError` when the flag is `false`.  The database
  connector itself (module `skyway.db`, not present under src/) mirrors
  the in-memory registry when present, and the journal table
  `node_journal` is modelled as the list `journal`.
* Timestamps (`NodeMap.tsnow()`, a second-resolution epoch stamp) are
  passed in as an explicit `now : Nat` parameter; the powered-off value
  is the zero stamp (the source stores the int `0` or the string `'0'`
  depending on the writer; both denote the zero stamp).
* File contents are `String`s.  `dump_hosts` touches the lock and the
  three files; its file effects are modelled by the pure artifact
  functions `hostsArtifact` and `netgroupArtifact`, and its lock/error
  behaviour by `dump_hosts` over an explicit file-system record `FS`.
  It never changes the registry (`return self`), so the registry-level
  operations `power_on`, `power_off` and `rebuild` are modelled on the
  registry state alone.
* Python's `host.split("-")` (single-character separator) is modelled by
  `List.splitOn '-'` on the character list of the string.
-/

namespace Skyway

/-- The Python exception classes the embedded code can raise. -/
inductive PyErr where
  | attributeError
  | nameError
  | keyError
  | indexError
  | ioError
  deriving DecidableEq, Repr

/-- One row of the `node_map` table / one value of the `self.nodes` dict:
columns `host,type,cloud,account` plus the power fields
`instance`, `ip`, `start`. -/
structure Node where
  host : String
  type : String
  cloud : String
  account : String
  «instance» : String
  ip : String
  start : Nat
  deriving DecidableEq, Repr

/-- One row of the append-only `node_journal` table: the captured node at
power-off time, with `ip` deleted and `end` added. -/
structure JournalEntry where
  host : String
  type : String
  cloud : String
  account : String
  «instance» : String
  start : Nat
  «end» : Nat
  deriving DecidableEq, Repr

/-- The state a `NodeMap` object carries: the in-memory registry
`self.nodes`, whether the attribute `self.db` exists, and the persisted
journal table. -/
structure NodeMap where
  nodes : List Node
  dbPresent : Bool
  journal : List JournalEntry
  deriving DecidableEq, Repr

/-- Model of `NodeMap.__init__`: empty registry, and `self.db` is never assigned
(the `self.db = DBConnector()` line, like the loading loop below it, is
commented out in the source). -/
def NodeMap.init : NodeMap :=
  { nodes := [], dbPresent := false, journal := [] }

/-- Dict lookup `self.nodes[host]` as an `Option` (first row whose key
matches; a dict holds at most one). -/
def findNode (m : NodeMap) (host : String) : Option Node :=
  m.nodes.find? (fun n => n.host == host)

/-- Model of `NodeMap.update(host, instance=i, ip=p, start=s)`: writes the three
power fields of `self.nodes[host]` (raising `KeyError` when the host is
not a key), then persists via `self.db.update_one` (raising
`AttributeError` when `self.db` does not exist; the state is lost with
the propagating exception). -/
def update (m : NodeMap) (host i p : String) (s : Nat) : Except PyErr NodeMap :=
  if (findNode m host).isSome then
    if m.dbPresent then
      .ok { m with nodes := m.nodes.map (fun n =>
              if n.host == host then { n with «instance» := i, ip := p, start := s } else n) }
    else .error .attributeError
  else .error .keyError

/-- Model of `NodeMap.power_on(host, instance, ip)`: `update` with
`start = tsnow()`, then `dump_hosts` (which leaves the registry
unchanged; its file effects are modelled separately). -/
def power_on (m : NodeMap) (host i p : String) (now : Nat) : Except PyErr NodeMap :=
  update m host i p now

/-- Model of `NodeMap.power_off(host='', cloud=None, instance=None)`: optionally
resolve the host from a `(cloud, instance)` pair, soft-fail with `''`
when no registered host matches, otherwise capture a copy of the node,
reset its power fields via `update`, journal the captured copy with
`end = tsnow()` and `ip` deleted via `self.db.insert_one`, and return
the captured `instance` identifier.

`resolveHost` is the scan at the top of `power_off`: when a
`(cloud, instance)` pair is supplied, the first registry row matching it
supplies the host name, otherwise the `host` argument is used as given. -/
def resolveHost (m : NodeMap) (host : String) (cloud inst : Option String) : String :=
  match cloud, inst with
  | some c, some i =>
    match m.nodes.find? (fun n => n.cloud == c && n.«instance» == i) with
    | some n => n.host
    | none => host
  | _, _ => host

/-- The body of `NodeMap.power_off` after host resolution: soft-fail with
`''` when the resolved host is empty or unregistered, otherwise capture,
reset, journal, and return the captured identifier. -/
def power_off (m : NodeMap) (host : String) (cloud inst : Option String) (now : Nat) :
    Except PyErr (String × NodeMap) :=
  let host := resolveHost m host cloud inst
  if host == "" then .ok ("", m)
  else
    match findNode m host with
    | none => .ok ("", m)
    | some node =>
      match update m host "" "" 0 with
      | .error e => .error e
      | .ok m₁ =>
        if m₁.dbPresent then
          .ok (node.«instance»,
               { m₁ with journal := m₁.journal ++
                   [{ host := node.host, type := node.type, cloud := node.cloud,
                      account := node.account, «instance» := node.«instance»,
                      start := node.start, «end» := now }] })
        else .error .attributeError

/-- The row-synthesis step of `NodeMap.rebuild` for a host absent from the
registry: `w = host.split("-")`, then
`{'host':host, 'cloud':w[1], 'type':w[2], 'account':w[0]+'-'+w[1],
'instance':'', 'ip':'', 'start':0}`; fewer than three segments raises
`IndexError` at `w[1]` or `w[2]`. -/
def parseHost (host : String) : Except PyErr Node :=
  match (host.toList.splitOn '-').map (fun w => String.mk w) with
  | w0 :: w1 :: w2 :: _ =>
    .ok { host := host, cloud := w1, type := w2, account := w0 ++ "-" ++ w1,
          «instance» := "", ip := "", start := 0 }
  | _ => .error .indexError

/-- The insertion loop of `NodeMap.rebuild`: for each desired host not
already a key of `self.nodes`, synthesize the row and persist it via
`self.db.insert_one` (an `AttributeError` when `self.db` is absent). -/
def insertMissing (db : Bool) (ns : List Node) (hosts : List String) :
    Except PyErr (List Node) :=
  match hosts with
  | [] => .ok ns
  | h :: rest =>
    if ns.any (fun n => n.host == h) then insertMissing db ns rest
    else
      match parseHost h with
      | .error e => .error e
      | .ok node => if db then insertMissing db (ns ++ [node]) rest else .error .attributeError

/-- Model of `NodeMap.rebuild(nodes)`: scan the registry for hosts missing from the
desired list; a still-on one triggers the error-return line, whose format
expression `% (name, node['instance'])` references the undefined variable
`name` and therefore raises `NameError`.  Otherwise delete every missing
host (each deletion touching `self.db.remove_one`), then insert every
desired host that has no row. -/
def rebuild (m : NodeMap) (hosts : List String) : Except PyErr NodeMap :=
  if m.nodes.any (fun n => !(hosts.contains n.host) && n.«instance» != "") then
    .error .nameError
  else if !(m.nodes.filter (fun n => !(hosts.contains n.host))).isEmpty && !m.dbPresent then
    .error .attributeError
  else
    match insertMissing m.dbPresent (m.nodes.filter (fun n => hosts.contains n.host)) hosts with
    | .error e => .error e
    | .ok ns => .ok { m with nodes := ns }

/-- One line of the `/etc/hosts` payload:
`' '.join(['1.2.3.4' if node['ip']=='' else node['ip'], host])`. -/
def hostsLine (n : Node) : String :=
  (if n.ip == "" then "1.2.3.4" else n.ip) ++ " " ++ n.host

/-- The `/etc/hosts` content written by `dump_hosts`: the static base file
followed by one line per registry entry (all of them, joined by newlines,
with a trailing newline). -/
def hostsArtifact (base : String) (ns : List Node) : String :=
  base ++ String.intercalate "\n" (ns.map hostsLine) ++ "\n"

/-- The `/etc/netgroup` content written by `dump_hosts`: the fixed group
name and one `(ip,,)` tuple per registry entry with non-empty `ip`. -/
def netgroupArtifact (ns : List Node) : String :=
  "skyway    " ++
    String.intercalate " " ((ns.filter (fun n => n.ip != "")).map (fun n => "(" ++ n.ip ++ ",,)")) ++
    "\n"

/-- The file-system circumstances `dump_hosts` runs under: the outcome of
reading the `hosts-base` file and whether each of the two artifact writes
succeeds. -/
structure FS where
  hostsBase : Except PyErr String
  etcHostsWritable : Bool
  netgroupWritable : Bool

/-- Model of `NodeMap.dump_hosts`: `self.lock()`, read `hosts-base`, write
`/etc/hosts` and `/etc/netgroup`, `self.unlock()`.  There is no
`try/finally`: an exception raised between `lock()` and `unlock()`
propagates with the lock still held.  The result pairs the outcome (the
two artifact contents on success) with whether the lock is still held on
exit. -/
def dump_hosts (fs : FS) (m : NodeMap) : Except PyErr (String × String) × Bool :=
  match fs.hostsBase with
  | .error e => (.error e, true)
  | .ok base =>
    if !fs.etcHostsWritable then (.error .ioError, true)
    else if !fs.netgroupWritable then (.error .ioError, true)
    else (.ok (hostsArtifact base m.nodes, netgroupArtifact m.nodes), false)

/-- Model of `NodeMap.running_summary(account)` (the live pandas code path): select
the persisted rows whose `account` matches, group by `type`, and return
the group sizes.  The selection filters on `account` only; there is no
`instance != ''` condition (the commented-out database query had one).
Pandas orders the groups by key; the key order is immaterial here, so the
groups are listed in first-appearance order. -/
def running_summary (rows : List Node) (account : String) : List (String × Nat) :=
  let sel := rows.filter (fun n => n.account == account)
  ((sel.map (fun n => n.type)).eraseDups).map
    (fun t => (t, (sel.filter (fun n => n.type == t)).length))

/-- Invariant I1 on one row: the three power fields agree. -/
def nodeI1 (n : Node) : Prop :=
  (n.«instance» = "" ↔ n.ip = "") ∧ (n.ip = "" ↔ n.start = 0)

instance (n : Node) : Decidable (nodeI1 n) := by
  unfold nodeI1; infer_instance

/-! Concrete sample data used to instantiate the theorems. -/

/-- An ON node: host `a` at ip `10.0.0.1` (the registry example of the spec). -/
def nodeA : Node :=
  { host := "a", type := "t2", cloud := "aws", account := "u-aws",
    «instance» := "i-1", ip := "10.0.0.1", start := 5 }

/-- An OFF node: host `b`, all power fields empty/zero. -/
def nodeB : Node :=
  { host := "b", type := "t3", cloud := "aws", account := "u-aws",
    «instance» := "", ip := "", start := 0 }

/-- The node `nodeB` after a `power_on` with instance `i-9`, ip `1.1.1.1` at time 7. -/
def nodeBOn : Node :=
  { host := "b", type := "t3", cloud := "aws", account := "u-aws",
    «instance» := "i-9", ip := "1.1.1.1", start := 7 }

/-- The OFF row `rebuild` synthesizes for the host name `u-aws-t2`. -/
def nodeU : Node :=
  { host := "u-aws-t2", type := "t2", cloud := "aws", account := "u-aws",
    «instance» := "", ip := "", start := 0 }

/-- A registry holding `nodeA` and `nodeB`, with a working database connector. -/
def exMap : NodeMap := { nodes := [nodeA, nodeB], dbPresent := true, journal := [] }

/-- A registry holding only the ON node `nodeA`, with `self.db` missing
(as `NodeMap.__init__` leaves it). -/
def exMapNoDb : NodeMap := { nodes := [nodeA], dbPresent := false, journal := [] }

/-- A registry holding only the OFF node `nodeB`, with a working connector. -/
def exMapOff : NodeMap := { nodes := [nodeB], dbPresent := true, journal := [] }

/-- The registry `exMapOff` after `power_on "b" "i-9" "1.1.1.1"` at time 7. -/
def exMapOffOn : NodeMap := { nodes := [nodeBOn], dbPresent := true, journal := [] }

/-- An empty registry with a working database connector. -/
def exEmptyDb : NodeMap := { nodes := [], dbPresent := true, journal := [] }

/-- The registry produced by `rebuild exEmptyDb ["u-aws-t2"]`. -/
def exRebuilt : NodeMap := { nodes := [nodeU], dbPresent := true, journal := [] }

/-! Helper lemmas. -/

theorem update_ok (m : NodeMap) (host i p : String) (s : Nat) (m' : NodeMap)
    (h : update m host i p s = .ok m') :
    m'.nodes = m.nodes.map (fun n =>
      if n.host == host then { n with «instance» := i, ip := p, start := s } else n)
    ∧ m'.dbPresent = m.dbPresent ∧ m'.journal = m.journal := by
  unfold update at h
  by_cases h1 : (findNode m host).isSome = true
  · simp only [h1, if_true] at h
    by_cases h2 : m.dbPresent = true
    · simp only [h2, if_true, Except.ok.injEq] at h
      subst h; simp [h2]
    · simp [h2] at h
  · simp [h1] at h

theorem update_ok_db (m : NodeMap) (host i p : String) (s : Nat) (m' : NodeMap)
    (h : update m host i p s = .ok m') : m.dbPresent = true := by
  unfold update at h
  by_cases h1 : (findNode m host).isSome = true
  · by_cases h2 : m.dbPresent = true
    · exact h2
    · simp [h1, h2] at h
  · simp [h1] at h

theorem update_some_db (m : NodeMap) (host i p : String) (s : Nat)
    (h1 : (findNode m host).isSome = true) (h2 : m.dbPresent = true) :
    update m host i p s = .ok { m with nodes := m.nodes.map (fun n =>
      if n.host == host then { n with «instance» := i, ip := p, start := s } else n) } := by
  unfold update
  simp [h1, h2]

theorem find?_host_map (l : List Node) (host : String) (f : Node → Node)
    (hf : ∀ n, (f n).host = n.host) :
    (l.map f).find? (fun n => n.host == host) = (l.find? (fun n => n.host == host)).map f := by
  rw [List.find?_map]
  have hpred : ((fun n => n.host == host) ∘ f) = (fun n => n.host == host) := by
    funext n
    simp [Function.comp, hf]
  rw [hpred]

theorem power_off_not_found (m : NodeMap) (g : String) (now : Nat)
    (hg : (findNode m g).isSome = false) :
    power_off m g none none now = .ok ("", m) := by
  simp only [power_off]
  have hres : resolveHost m g none none = g := rfl
  rw [hres]
  by_cases h : (g == "") = true
  · simp [h]
  · cases hfg : findNode m g with
    | none => simp [h, hfg]
    | some v => rw [hfg] at hg; simp at hg

theorem power_off_found (m : NodeMap) (h : String) (now : Nat) (node : Node)
    (hne : (h == "") = false) (hfind : findNode m h = some node) (hdb : m.dbPresent = true) :
    power_off m h none none now = .ok (node.«instance»,
      { nodes := m.nodes.map (fun n =>
          if n.host == h then { n with «instance» := "", ip := "", start := 0 } else n),
        dbPresent := m.dbPresent,
        journal := m.journal ++
          [{ host := node.host, type := node.type, cloud := node.cloud,
             account := node.account, «instance» := node.«instance»,
             start := node.start, «end» := now }] }) := by
  simp only [power_off]
  have hres : resolveHost m h none none = h := rfl
  rw [hres, hne]
  have hsome : (findNode m h).isSome = true := by rw [hfind]; rfl
  rw [hfind]
  simp only [Bool.false_eq_true, if_false]
  rw [update_some_db m h "" "" 0 hsome hdb]
  simp [hdb]

theorem parseHost_ok (h : String) (nd : Node) (hp : parseHost h = .ok nd) :
    nd.«instance» = "" ∧ nd.ip = "" ∧ nd.start = 0 ∧ nd.host = h := by
  unfold parseHost at hp
  cases hl : (h.toList.splitOn '-').map (fun w => String.mk w) with
  | nil => rw [hl] at hp; cases hp
  | cons w0 rest =>
    cases rest with
    | nil => rw [hl] at hp; cases hp
    | cons w1 rest2 =>
      cases rest2 with
      | nil => rw [hl] at hp; cases hp
      | cons w2 rest3 =>
        rw [hl] at hp
        have := Except.ok.inj hp
        subst this
        exact ⟨rfl, rfl, rfl, rfl⟩

theorem insertMissing_mono (db : Bool) (hs : List String) (ns ns' : List Node)
    (h : insertMissing db ns hs = .ok ns') : ∀ n ∈ ns, n ∈ ns' := by
  induction hs generalizing ns with
  | nil =>
    unfold insertMissing at h
    have := Except.ok.inj h
    subst this
    exact fun n hn => hn
  | cons hh rest ih =>
    unfold insertMissing at h
    by_cases hpres : ns.any (fun n => n.host == hh) = true
    · rw [hpres] at h
      simp only [if_true] at h
      exact ih ns h
    · have hfalse : ns.any (fun n => n.host == hh) = false :=
        Bool.eq_false_iff.mpr hpres
      rw [hfalse] at h
      simp only [Bool.false_eq_true, if_false] at h
      cases hp : parseHost hh with
      | error e => rw [hp] at h; cases h
      | ok nd =>
        rw [hp] at h
        cases db with
        | false => simp only [Bool.false_eq_true, if_false] at h; cases h
        | true =>
          simp only [if_true] at h
          intro n hn
          exact ih (ns ++ [nd]) h n (List.mem_append_left _ hn)

theorem insertMissing_mem (db : Bool) (hs : List String) (ns ns' : List Node)
    (h : insertMissing db ns hs = .ok ns') :
    ∀ n ∈ ns', n ∈ ns ∨ ∃ hh ∈ hs, parseHost hh = .ok n := by
  induction hs generalizing ns with
  | nil =>
    unfold insertMissing at h
    have := Except.ok.inj h
    subst this
    exact fun n hn => Or.inl hn
  | cons hh rest ih =>
    unfold insertMissing at h
    by_cases hpres : ns.any (fun n => n.host == hh) = true
    · rw [hpres] at h
      simp only [if_true] at h
      intro n hn
      rcases ih ns h n hn with hmem | ⟨hh', hmem', hp'⟩
      · exact Or.inl hmem
      · exact Or.inr ⟨hh', List.mem_cons_of_mem _ hmem', hp'⟩
    · have hfalse : ns.any (fun n => n.host == hh) = false :=
        Bool.eq_false_iff.mpr hpres
      rw [hfalse] at h
      simp only [Bool.false_eq_true, if_false] at h
      cases hp : parseHost hh with
      | error e => rw [hp] at h; cases h
      | ok nd =>
        rw [hp] at h
        cases db with
        | false => simp only [Bool.false_eq_true, if_false] at h; cases h
        | true =>
          simp only [if_true] at h
          intro n hn
          rcases ih (ns ++ [nd]) h n hn with hmem | ⟨hh', hmem', hp'⟩
          · rcases List.mem_append.mp hmem with hl | hr
            · exact Or.inl hl
            · have : n = nd := by simpa using hr
              subst this
              exact Or.inr ⟨hh, List.mem_cons_self _ _, hp⟩
          · exact Or.inr ⟨hh', List.mem_cons_of_mem _ hmem', hp'⟩

theorem insertMissing_covers (db : Bool) (hs : List String) (ns ns' : List Node)
    (h : insertMissing db ns hs = .ok ns') :
    ∀ hh ∈ hs, ∃ n ∈ ns', (n.host == hh) = true := by
  induction hs generalizing ns with
  | nil => exact fun hh hmem => absurd hmem (List.not_mem_nil hh)
  | cons hh0 rest ih =>
    unfold insertMissing at h
    by_cases hpres : ns.any (fun n => n.host == hh0) = true
    · rw [hpres] at h
      simp only [if_true] at h
      intro hh hmem
      rcases List.mem_cons.mp hmem with heq | hmem'
      · obtain ⟨n, hn, hbeq⟩ := List.any_eq_true.mp hpres
        exact ⟨n, insertMissing_mono db rest ns ns' h n hn, heq ▸ hbeq⟩
      · exact ih ns h hh hmem'
    · have hfalse : ns.any (fun n => n.host == hh0) = false :=
        Bool.eq_false_iff.mpr hpres
      rw [hfalse] at h
      simp only [Bool.false_eq_true, if_false] at h
      cases hp : parseHost hh0 with
      | error e => rw [hp] at h; cases h
      | ok nd =>
        rw [hp] at h
        cases db with
        | false => simp only [Bool.false_eq_true, if_false] at h; cases h
        | true =>
          simp only [if_true] at h
          intro hh hmem
          rcases List.mem_cons.mp hmem with heq | hmem'
          · have hhost : nd.host = hh0 := (parseHost_ok hh0 nd hp).2.2.2
            refine ⟨nd, insertMissing_mono true rest (ns ++ [nd]) ns' h nd ?_, ?_⟩
            · exact List.mem_append_right _ (List.mem_singleton_self nd)
            · rw [heq, hhost]
              exact beq_self_eq_true hh0
          · exact ih (ns ++ [nd]) h hh hmem'

theorem insertMissing_noop (db : Bool) (hs : List String) (ns : List Node)
    (hall : ∀ hh ∈ hs, ns.any (fun n => n.host == hh) = true) :
    insertMissing db ns hs = .ok ns := by
  induction hs with
  | nil => rfl
  | cons hh rest ih =>
    unfold insertMissing
    rw [hall hh (List.mem_cons_self _ _)]
    simp only [if_true]
    exact ih (fun hh' hmem' => hall hh' (List.mem_cons_of_mem _ hmem'))

theorem rebuild_ok (m : NodeMap) (hosts : List String) (m' : NodeMap)
    (h : rebuild m hosts = .ok m') :
    insertMissing m.dbPresent (m.nodes.filter (fun n => hosts.contains n.host)) hosts
      = .ok m'.nodes
    ∧ m'.dbPresent = m.dbPresent ∧ m'.journal = m.journal := by
  unfold rebuild at h
  by_cases h1 : (m.nodes.any fun n => !hosts.contains n.host && n.«instance» != "") = true
  · rw [h1] at h; simp only [if_true] at h; cases h
  · rw [Bool.eq_false_iff.mpr h1] at h
    simp only [Bool.false_eq_true, if_false] at h
    by_cases h2 :
        (!(m.nodes.filter (fun n => !hosts.contains n.host)).isEmpty && !m.dbPresent) = true
    · rw [h2] at h; simp only [if_true] at h; cases h
    · rw [Bool.eq_false_iff.mpr h2] at h
      simp only [Bool.false_eq_true, if_false] at h
      cases him : insertMissing m.dbPresent
          (m.nodes.filter (fun n => hosts.contains n.host)) hosts with
      | error e => rw [him] at h; cases h
      | ok ns =>
        rw [him] at h
        obtain rfl : m' = { m with nodes := ns } := (Except.ok.inj h).symm
        exact ⟨rfl, rfl, rfl⟩

/-! Claim C7. -/

/-- C7: `power_off` on a host absent from the registry (no cloud/instance
pair supplied) returns the empty-string sentinel and leaves the registry
and the journal unmodified; it does not raise. -/
theorem power_off_unknown_host_is_noop (m : NodeMap) (g : String) (now : Nat)
    (hg : (findNode m g).isSome = false) :
    power_off m g none none now = .ok ("", m) :=
  power_off_not_found m g now hg

/-- Witness for C7 at the concrete registry `exMap` and host `ghost`. -/
theorem power_off_unknown_host_is_noop_witness :
    power_off exMap "ghost" none none 9 = .ok ("", exMap) :=
  power_off_unknown_host_is_noop exMap "ghost" 9 (by decide)

/-! Claim C6. -/

/-- C6: after `power_on(h, "i-123", "10.0.0.5")`, a `power_off(host=h)`
succeeds and returns `"i-123"`: the instance identifier captured before
the fields are reset (for any registered, non-empty host name, with the
database connector present). -/
theorem power_on_power_off_returns_captured_instance (m : NodeMap) (h : String) (t1 t2 : Nat)
    (hdb : m.dbPresent = true) (hh : (findNode m h).isSome = true) (hne : (h == "") = false) :
    ((power_on m h "i-123" "10.0.0.5" t1).bind
      (fun m₁ => power_off m₁ h none none t2)).map (fun r => r.1) = .ok "i-123" := by
  obtain ⟨node0, hnode0⟩ := Option.isSome_iff_exists.mp hh
  have h1 := update_some_db m h "i-123" "10.0.0.5" t1 hh hdb
  unfold power_on
  rw [h1]
  have hbind : ∀ (a : NodeMap) (f : NodeMap → Except PyErr (String × NodeMap)),
      (Except.ok a).bind f = f a := fun a f => rfl
  rw [hbind]
  have hnode0' : List.find? (fun n => n.host == h) m.nodes = some node0 := hnode0
  have hhost0 : node0.host = h := by simpa using List.find?_some hnode0'
  have hfind1 : findNode { m with nodes := m.nodes.map (fun n =>
      if n.host == h then { n with «instance» := "i-123", ip := "10.0.0.5", start := t1 } else n) } h =
      some { node0 with «instance» := "i-123", ip := "10.0.0.5", start := t1 } := by
    unfold findNode
    rw [find?_host_map _ h _ (fun n => by by_cases hc : (n.host == h) = true <;> simp [hc])]
    rw [hnode0']
    simp [hhost0]
  rw [power_off_found _ h t2 _ hne hfind1 hdb]
  rfl

/-- Witness for C6 at the registry `exMap` and host `a`. -/
theorem power_on_power_off_returns_captured_instance_witness :
    ((power_on exMap "a" "i-123" "10.0.0.5" 7).bind
      (fun m₁ => power_off m₁ "a" none none 9)).map (fun r => r.1) = .ok "i-123" :=
  power_on_power_off_returns_captured_instance exMap "a" 7 9 (by decide) (by decide) (by decide)

/-! Claim C4. -/

/-- C4: a `rebuild` whose desired list omits the currently ON host `a`
does abort without touching the registry, but it raises `NameError`
instead of returning the intended inconsistency message: the error-return
line references the undefined variable `name`. -/
theorem rebuild_live_removed_raises_name_error :
    rebuild { nodes := [nodeA], dbPresent := true, journal := [] } [] =
      .error .nameError := by
  rfl

/-! Claim C8. -/

/-- C8: `running_summary` counts the OFF node `b` of account `u-aws`
(its selection filters on `account` only), so an account whose only node
of type `t3` is powered off still reports one running node of type `t3`. -/
theorem running_summary_counts_off_node :
    nodeB.«instance» = "" ∧ nodeB.ip = "" ∧ nodeB.start = 0 ∧
    running_summary [nodeB] "u-aws" = [("t3", 1)] := by
  decide

/-! Claim C2. -/

/-- Counterexample for C2: for the registry holding `a` ON at `10.0.0.1`
and `b` OFF, the hosts artifact is `10.0.0.1 a\n1.2.3.4 b\n`; it contains
a line referencing the OFF node `b` (with the sentinel address), not zero
such lines. -/
theorem hosts_artifact_lists_off_node :
    nodeB.«instance» = "" ∧ nodeB.ip = "" ∧
    hostsArtifact "" [nodeA, nodeB] = "10.0.0.1 a\n1.2.3.4 b\n" ∧
    ((hostsArtifact "" [nodeA, nodeB]).toList.splitOn '\n').contains "1.2.3.4 b".toList
      = true := by
  decide

/-! Claim C9. -/

/-- Counterexample for C9: when reading the `hosts-base` file raises, the
protected scope of `dump_hosts` is exited with the lock still held; the
release is skipped on this error path. -/
theorem dump_hosts_error_keeps_lock :
    (dump_hosts
      { hostsBase := .error .ioError, etcHostsWritable := true, netgroupWritable := true }
      exMap).2 = true := by
  decide

/-- C9 (amended): the lock acquired by `dump_hosts` is released exactly on
the successful exit path; whenever the base-file read or either artifact
write raises, the error propagates with the lock still held. -/
theorem dump_hosts_unlock_iff_success (fs : FS) (m : NodeMap) :
    ((dump_hosts fs m).2 = false) ↔ (∃ out, (dump_hosts fs m).1 = .ok out) := by
  obtain ⟨hb, w1, w2⟩ := fs
  unfold dump_hosts
  cases hb with
  | error e => simp
  | ok base =>
    by_cases h1 : w1 = true
    · by_cases h2 : w2 = true
      · simp [h1, h2]
      · simp only [Bool.not_eq_true] at h2
        simp [h1, h2]
    · simp only [Bool.not_eq_true] at h1
      simp [h1]

/-! Claim C10. -/

theorem insertMissing_nodb (ns : List Node) (hs : List String)
    (habs : ∃ h ∈ hs, ns.any (fun n => n.host == h) = false)
    (hp : ∀ h ∈ hs, ns.any (fun n => n.host == h) = false → ∃ nd, parseHost h = .ok nd) :
    insertMissing false ns hs = .error .attributeError := by
  induction hs with
  | nil =>
    obtain ⟨h, hmem, _⟩ := habs
    exact absurd hmem (List.not_mem_nil h)
  | cons h rest ih =>
    by_cases hpres : ns.any (fun n => n.host == h) = true
    · simp only [insertMissing, hpres, if_true]
      apply ih
      · obtain ⟨h', hmem, hfalse⟩ := habs
        rcases List.mem_cons.mp hmem with heq | hmem'
        · subst heq
          rw [hpres] at hfalse
          cases hfalse
        · exact ⟨h', hmem', hfalse⟩
      · intro h' hmem' hf
        exact hp h' (List.mem_cons_of_mem _ hmem') hf
    · have hfalse : ns.any (fun n => n.host == h) = false := by
        cases hval : ns.any (fun n => n.host == h)
        · rfl
        · exact absurd hval hpres
      obtain ⟨nd, hnd⟩ := hp h (List.mem_cons_self h rest) hfalse
      simp [insertMissing, hfalse, hnd]

/-- C10: the constructor leaves `self.db` unassigned, so with the
connector absent every `update` against a registered host — and hence
every `power_on`, every `power_off` that resolves to a registered host,
and every `rebuild` that would delete or insert a row — raises
`AttributeError` at the persistence step, while the unknown-host
soft-fail path of `power_off` still returns the empty sentinel
normally. -/
theorem missing_db_connector_attribute_error (m : NodeMap) (hdb : m.dbPresent = false) :
    NodeMap.init.dbPresent = false
    ∧ (∀ host i p s, (findNode m host).isSome = true →
        update m host i p s = .error .attributeError)
    ∧ (∀ host i p now, (findNode m host).isSome = true →
        power_on m host i p now = .error .attributeError)
    ∧ (∀ host now, (host == "") = false → (findNode m host).isSome = true →
        power_off m host none none now = .error .attributeError)
    ∧ (∀ hosts, m.nodes.any (fun n => !(hosts.contains n.host) && n.«instance» != "") = false →
        (m.nodes.filter (fun n => !(hosts.contains n.host))).isEmpty = false →
        rebuild m hosts = .error .attributeError)
    ∧ (∀ hosts, (∀ n ∈ m.nodes, hosts.contains n.host = true) →
        (∃ h ∈ hosts, m.nodes.any (fun n => n.host == h) = false) →
        (∀ h ∈ hosts, m.nodes.any (fun n => n.host == h) = false →
          ∃ nd, parseHost h = .ok nd) →
        rebuild m hosts = .error .attributeError)
    ∧ (∀ g now, (findNode m g).isSome = false → power_off m g none none now = .ok ("", m)) := by
  have hupd : ∀ host i p s, (findNode m host).isSome = true →
      update m host i p s = .error .attributeError := by
    intro host i p s hsome
    unfold update
    simp [hsome, hdb]
  refine ⟨rfl, hupd, ?_, ?_, ?_, ?_, ?_⟩
  · intro host i p now hsome
    exact hupd host i p now hsome
  · intro host now hne hsome
    simp only [power_off]
    have hres : resolveHost m host none none = host := rfl
    rw [hres, hne]
    obtain ⟨node0, hnode0⟩ := Option.isSome_iff_exists.mp hsome
    rw [hnode0]
    simp only [Bool.false_eq_true, if_false]
    rw [hupd host "" "" 0 hsome]
  · intro hosts hon hrem
    unfold rebuild
    simp only [hon, Bool.false_eq_true, if_false, hrem, hdb, Bool.not_false, Bool.and_self,
      if_true]
  · intro hosts hall habs hp
    unfold rebuild
    have hon : m.nodes.any (fun n => !(hosts.contains n.host) && n.«instance» != "") = false := by
      rw [List.any_eq_false]
      intro n hn
      rw [hall n hn]
      simp
    have hfilter : m.nodes.filter (fun n => !(hosts.contains n.host)) = [] := by
      rw [List.filter_eq_nil_iff]
      intro n hn
      rw [hall n hn]
      simp
    have hkeep : m.nodes.filter (fun n => hosts.contains n.host) = m.nodes := by
      rw [List.filter_eq_self]
      exact hall
    rw [hon]
    simp only [Bool.false_eq_true, if_false, hfilter, hkeep, hdb]
    rw [insertMissing_nodb m.nodes hosts habs hp]
    rfl
  · intro g now hg
    exact power_off_not_found m g now hg

/-- Witness for C10 at the registry `exMapNoDb` built without a
connector: updating the registered host `a` raises `AttributeError`,
while powering off the unknown host `ghost` soft-fails. -/
theorem missing_db_connector_attribute_error_witness :
    update exMapNoDb "a" "i-2" "10.0.0.2" 11 = .error .attributeError ∧
    power_off exMapNoDb "ghost" none none 3 = .ok ("", exMapNoDb) :=
  ⟨(missing_db_connector_attribute_error exMapNoDb (by rfl)).2.1 "a" "i-2" "10.0.0.2" 11 (by rfl),
   (missing_db_connector_attribute_error exMapNoDb (by rfl)).2.2.2.2.2.2 "ghost" 3 (by rfl)⟩

/-! Claim C1. -/

/-- C1: every mutating operation persists only rows in which the three
power fields agree (Invariant I1): starting from a registry satisfying
I1, any successful `power_on` with a non-empty instance, non-empty ip and
non-zero timestamp, any successful `power_off`, and any successful
`rebuild` leave every row either fully ON or fully OFF. -/
theorem mutations_preserve_full_on_off (m : NodeMap) (hm : ∀ n ∈ m.nodes, nodeI1 n) :
    (∀ host i p now m', i ≠ "" → p ≠ "" → now ≠ 0 →
        power_on m host i p now = .ok m' → ∀ n ∈ m'.nodes, nodeI1 n)
    ∧ (∀ host cloud inst now r m', power_off m host cloud inst now = .ok (r, m') →
        ∀ n ∈ m'.nodes, nodeI1 n)
    ∧ (∀ hosts m', rebuild m hosts = .ok m' → ∀ n ∈ m'.nodes, nodeI1 n) := by
  have hupdI1 : ∀ host i p s m', (i = "" ↔ p = "") → (p = "" ↔ s = 0) →
      update m host i p s = .ok m' → ∀ n ∈ m'.nodes, nodeI1 n := by
    intro host i p s m' h1 h2 hu n hn
    obtain ⟨hnodes, _, _⟩ := update_ok m host i p s m' hu
    rw [hnodes] at hn
    obtain ⟨n0, hn0, rfl⟩ := List.mem_map.mp hn
    by_cases hc : (n0.host == host) = true
    · simp only [hc, if_true]
      exact ⟨h1, h2⟩
    · rw [Bool.eq_false_iff.mpr hc]
      simp only [Bool.false_eq_true, if_false]
      exact hm n0 hn0
  refine ⟨?_, ?_, ?_⟩
  · intro host i p now m' hi hp hnow hon
    exact hupdI1 host i p now m'
      (iff_of_false hi hp) (iff_of_false hp hnow) hon
  · intro host cloud inst now r m' hpo
    simp only [power_off] at hpo
    split at hpo
    · simp only [Except.ok.injEq, Prod.mk.injEq] at hpo
      obtain ⟨h1, rfl⟩ := hpo
      exact hm
    · split at hpo
      · simp only [Except.ok.injEq, Prod.mk.injEq] at hpo
        obtain ⟨h1, rfl⟩ := hpo
        exact hm
      · split at hpo
        · cases hpo
        · rename_i m₁ hequ
          split at hpo
          · simp only [Except.ok.injEq, Prod.mk.injEq] at hpo
            obtain ⟨h1, rfl⟩ := hpo
            intro n hn
            exact hupdI1 _ "" "" 0 m₁ (by simp) (by simp) hequ n hn
          · cases hpo
  · intro hosts m' hr n hn
    obtain ⟨him, _, _⟩ := rebuild_ok m hosts m' hr
    rcases insertMissing_mem _ _ _ _ him n hn with hmem | ⟨hh, _, hp⟩
    · exact hm n (List.mem_of_mem_filter hmem)
    · obtain ⟨hi, hip, hs, _⟩ := parseHost_ok hh n hp
      simp only [nodeI1, hi, hip, hs]
      simp

/-- Witness for C1: the row persisted by powering on the OFF node `b`
with instance `i-9`, ip `1.1.1.1` at time 7 satisfies Invariant I1. -/
theorem mutations_preserve_full_on_off_witness : nodeI1 nodeBOn :=
  (mutations_preserve_full_on_off exMapOff (by decide)).1 "b" "i-9" "1.1.1.1" 7 exMapOffOn
    (by decide) (by decide) (by decide) (by rfl) nodeBOn (by decide)

/-! Claim C5. -/

/-- C5: `rebuild` is idempotent: if `rebuild m S` succeeds producing
registry state `m'`, then immediately calling `rebuild m' S` again
succeeds and returns exactly `m'` — the second call deletes nothing,
inserts nothing, and leaves the registry identical. -/
theorem rebuild_idempotent (m m' : NodeMap) (S : List String)
    (h : rebuild m S = .ok m') : rebuild m' S = .ok m' := by
  obtain ⟨him, hdbeq, hjeq⟩ := rebuild_ok m S m' h
  have hcont : ∀ n ∈ m'.nodes, S.contains n.host = true := by
    intro n hn
    rcases insertMissing_mem _ _ _ _ him n hn with hmem | ⟨hh, hhmem, hp⟩
    · exact (List.mem_filter.mp hmem).2
    · have hhost : n.host = hh := (parseHost_ok hh n hp).2.2.2
      rw [hhost]
      exact List.contains_iff_exists_mem_beq.mpr ⟨hh, hhmem, beq_self_eq_true hh⟩
  have hcover : ∀ hh ∈ S, m'.nodes.any (fun n => n.host == hh) = true := by
    intro hh hmem
    obtain ⟨n, hn, hbeq⟩ := insertMissing_covers _ _ _ _ him hh hmem
    exact List.any_eq_true.mpr ⟨n, hn, hbeq⟩
  unfold rebuild
  have hc1 : (m'.nodes.any fun n => !S.contains n.host && n.«instance» != "") = false := by
    rw [List.any_eq_false]
    intro n hn
    rw [hcont n hn]
    simp
  have hc2 : m'.nodes.filter (fun n => !S.contains n.host) = [] := by
    rw [List.filter_eq_nil_iff]
    intro n hn
    rw [hcont n hn]
    simp
  have hc3 : m'.nodes.filter (fun n => S.contains n.host) = m'.nodes :=
    List.filter_eq_self.mpr hcont
  rw [hc1]
  simp only [Bool.false_eq_true, if_false, hc2, List.isEmpty_nil, Bool.not_true,
    Bool.false_and, hc3]
  rw [insertMissing_noop m'.dbPresent S m'.nodes hcover]

/-- Witness for C5: rebuilding the empty registry with desired set
`[u-aws-t2]` and rebuilding the result again with the same set returns
the same registry. -/
theorem rebuild_idempotent_witness : rebuild exRebuilt ["u-aws-t2"] = .ok exRebuilt :=
  rebuild_idempotent exEmptyDb exRebuilt ["u-aws-t2"] (by rfl)

/-! String plumbing: character-level views of `String.intercalate`, used
to read the artifact and host-name strings back as line and segment
lists. -/

theorem intercalate_go_data (sep acc : String) (l : List String) :
    (String.intercalate.go acc sep l).data =
      acc.data ++ (l.map (fun a => sep.data ++ a.data)).flatten := by
  induction l generalizing acc with
  | nil => simp [String.intercalate.go]
  | cons a as ih =>
    rw [String.intercalate.go, ih]
    simp [List.append_assoc]

theorem intercalate_cons_cons (s x y : List α) (ys : List (List α)) :
    List.intercalate s (x :: y :: ys) = x ++ s ++ List.intercalate s (y :: ys) := by
  simp [List.intercalate, List.append_assoc]

theorem intercalate_cons_eq (s x : List α) (xs : List (List α)) :
    List.intercalate s (x :: xs) = x ++ (xs.map (fun y => s ++ y)).flatten := by
  induction xs generalizing x with
  | nil => simp [List.intercalate]
  | cons y ys ih =>
    rw [intercalate_cons_cons, ih y]
    simp [List.append_assoc]

theorem intercalate_data (sep : String) (l : List String) :
    (String.intercalate sep l).data = List.intercalate sep.data (l.map String.data) := by
  cases l with
  | nil => rfl
  | cons a as =>
    rw [show String.intercalate sep (a :: as) = String.intercalate.go a sep as from rfl]
    rw [intercalate_go_data, List.map_cons, intercalate_cons_eq, List.map_map]
    rfl

theorem intercalate_append_nil (s x : List α) (xs : List (List α)) :
    List.intercalate s ((x :: xs) ++ [([] : List α)]) = List.intercalate s (x :: xs) ++ s := by
  induction xs generalizing x with
  | nil => simp [List.intercalate]
  | cons y ys ih =>
    have h1 : (x :: y :: ys) ++ [([] : List α)] = x :: y :: (ys ++ [[]]) := by simp
    have h2 : y :: (ys ++ [[]]) = (y :: ys) ++ [([] : List α)] := by simp
    rw [h1, intercalate_cons_cons, h2, ih y, intercalate_cons_cons]
    simp [List.append_assoc]

/-! Claim C3. -/

/-- Counterexample for C3: rebuilding an empty registry with the desired
host `u-aws-t2` stores `account = "u-aws"` (the first segment joined with
the cloud segment), and joining the stored account, cloud and type with
hyphens yields `u-aws-aws-t2`, not the host name. -/
theorem rebuild_account_join_mismatch :
    rebuild exEmptyDb ["u-aws-t2"] = .ok exRebuilt ∧
    nodeU.account = "u-aws" ∧
    nodeU.account ++ "-" ++ nodeU.cloud ++ "-" ++ nodeU.type ≠ nodeU.host := by
  refine ⟨by rfl, by rfl, ?_⟩
  decide

theorem rebuild_empty_single (j : List JournalEntry) (host : String) (node : Node)
    (hp : parseHost host = .ok node) :
    rebuild { nodes := [], dbPresent := true, journal := j } [host] =
      .ok { nodes := [node], dbPresent := true, journal := j } := by
  simp [rebuild, insertMissing, hp]

/-- C3 (amended): for a host name added by `rebuild` that splits on
hyphens into exactly the three segments `l0`, `l1`, `l2`, the new OFF
row stores `cloud = l1`, `type = l2` and `account = l0 ++ "-" ++ l1`
(the first segment joined with the cloud segment); joining the first
segment, the stored cloud, and the stored type with hyphens reproduces
the host name. -/
theorem rebuild_new_row_fields (j : List JournalEntry) (host : String) (l0 l1 l2 : List Char)
    (hsplit : host.toList.splitOn '-' = [l0, l1, l2]) :
    rebuild { nodes := [], dbPresent := true, journal := j } [host] =
      .ok { nodes := [{ host := host, type := String.mk l2, cloud := String.mk l1,
                        account := String.mk l0 ++ "-" ++ String.mk l1,
                        «instance» := "", ip := "", start := 0 }],
            dbPresent := true, journal := j }
    ∧ String.mk l0 ++ "-" ++ String.mk l1 ++ "-" ++ String.mk l2 = host := by
  have hparse : parseHost host = .ok
      { host := host, type := String.mk l2, cloud := String.mk l1,
        account := String.mk l0 ++ "-" ++ String.mk l1,
        «instance» := "", ip := "", start := 0 } := by
    unfold parseHost
    rw [hsplit]
    rfl
  have hjoin : String.mk l0 ++ "-" ++ String.mk l1 ++ "-" ++ String.mk l2 = host := by
    have h1 : List.intercalate ['-'] (host.toList.splitOn '-') = host.toList :=
      List.intercalate_splitOn host.toList '-'
    rw [hsplit] at h1
    apply String.ext
    simp only [String.data_append]
    have h2 : List.intercalate ['-'] [l0, l1, l2] = l0 ++ ['-'] ++ l1 ++ ['-'] ++ l2 := by
      rw [intercalate_cons_cons, intercalate_cons_cons]
      simp [List.intercalate, List.append_assoc]
    rw [h2] at h1
    simpa using h1
  exact ⟨rebuild_empty_single j host _ hparse, hjoin⟩

/-- Witness for C3 at the concrete added host `u-aws-t2`. -/
theorem rebuild_new_row_fields_witness :
    rebuild { nodes := [], dbPresent := true, journal := [] } ["u-aws-t2"] =
      .ok { nodes := [{ host := "u-aws-t2", type := String.mk ['t', '2'],
                        cloud := String.mk ['a', 'w', 's'],
                        account := String.mk ['u'] ++ "-" ++ String.mk ['a', 'w', 's'],
                        «instance» := "", ip := "", start := 0 }],
            dbPresent := true, journal := [] }
    ∧ String.mk ['u'] ++ "-" ++ String.mk ['a', 'w', 's'] ++ "-" ++ String.mk ['t', '2']
        = "u-aws-t2" :=
  rebuild_new_row_fields [] "u-aws-t2" ['u'] ['a', 'w', 's'] ['t', '2'] (by decide)

/-- C2 (amended): decoding the artifact (built over an empty base) by
newline yields exactly one line per registry node — `hostsLine n`, which
is `<ip> <host>` for an ON node and `1.2.3.4 <host>` for an OFF node —
followed by the empty piece from the trailing newline; OFF nodes are
listed too, not skipped. -/
theorem hosts_artifact_one_line_per_node (ns : List Node)
    (hnl : ∀ n ∈ ns, ('\n' : Char) ∉ (hostsLine n).toList)
    (hne : ns ≠ []) :
    (hostsArtifact "" ns).toList.splitOn '\n' =
      ns.map (fun n => (hostsLine n).toList) ++ [[]] := by
  have hdata : (hostsArtifact "" ns).toList =
      List.intercalate ['\n'] (ns.map (fun n => (hostsLine n).toList) ++ [[]]) := by
    show (hostsArtifact "" ns).data = _
    unfold hostsArtifact
    simp only [String.data_append]
    rw [intercalate_data, List.map_map]
    cases hns : ns with
    | nil => exact absurd hns hne
    | cons n0 rest =>
      rw [List.map_cons, List.map_cons, intercalate_append_nil]
      rfl
  rw [hdata]
  apply List.splitOn_intercalate
  · intro l hl
    rcases List.mem_append.mp hl with hmap | hnil
    · obtain ⟨n, hn, rfl⟩ := List.mem_map.mp hmap
      exact hnl n hn
    · have : l = [] := by simpa using hnil
      subst this
      exact List.not_mem_nil _
  · intro hcon
    exact absurd (List.append_eq_nil.mp hcon).2 (by simp)

/-- Witness for C2 at the example registry with `a` ON and `b` OFF. -/
theorem hosts_artifact_one_line_per_node_witness :
    (hostsArtifact "" [nodeA, nodeB]).toList.splitOn '\n' =
      [nodeA, nodeB].map (fun n => (hostsLine n).toList) ++ [[]] :=
  hosts_artifact_one_line_per_node [nodeA, nodeB] (by decide) (by decide)

end Skyway
